import Mathlib

/-!
Verification of the Mexem portfolio analyzer core.

A shallow embedding of the sectioned-CSV ingestion and metrics-computation
core of the Mexem portfolio analyzer (`src/main.py`, with `src/mexem.py` a
structurally divergent sibling).  Python `float` values are modelled as
exact rationals (`ℚ`), Python dictionaries as insertion-ordered association
lists, and Python exceptions (`ValueError` from `float`, `IndexError` from
out-of-range indexing) as `Option`/`Except` results.
-/

namespace Mexem

/-- A CSV row: the ordered list of string cells of one input line. -/
abbrev Row := List String

/-- A record: a field-name → string-value mapping built from a header row
and a data row (Python dict, insertion ordered, keys unique). -/
abbrev Record := List (String × String)

/-- Leading and trailing whitespace removed from a character list. -/
def trimChars (cs : List Char) : List Char :=
  ((cs.dropWhile Char.isWhitespace).reverse.dropWhile Char.isWhitespace).reverse

/-- Python `str.strip()`: leading and trailing whitespace removed. -/
def pyStrip (s : String) : String := String.mk (trimChars s.data)

/-- Python `str.lower()` on the ASCII tag strings this program compares. -/
def pyLower (s : String) : String := String.mk (s.data.map Char.toLower)

/-- Numeric value of a decimal digit character. -/
def digitVal (c : Char) : Option Nat :=
  if c.isDigit then some (c.toNat - '0'.toNat) else none

/-- Value of a (possibly empty) list of decimal digit characters;
`none` if any character is not a digit. -/
def decDigits (cs : List Char) : Option Nat :=
  cs.foldlM (fun acc c => (digitVal c).map (fun d => 10 * acc + d)) 0

/-- The parsing core of Python `float(s)` on the plain decimal literals
this program feeds it (optional sign, integer part, optional fractional
part): `some (negative?, integer part, fraction digits, fraction length)`
on success, `none` where Python raises `ValueError`. -/
def pyFloatParts (s : String) : Option (Bool × Nat × Nat × Nat) :=
  let cs := trimChars s.data
  let neg : Bool := match cs with
    | '-' :: _ => true
    | _ => false
  let body : List Char := match cs with
    | '-' :: rest => rest
    | '+' :: rest => rest
    | _ => cs
  let ip := body.takeWhile (fun c => c ≠ '.')
  match body.dropWhile (fun c => c ≠ '.') with
  | [] =>
    if ip.isEmpty then none
    else (decDigits ip).map (fun n => (neg, n, 0, 0))
  | _ :: fp =>
    if fp.any (fun c => c = '.') then none
    else if ip.isEmpty && fp.isEmpty then none
    else match decDigits ip, decDigits fp with
      | some i, some f => some (neg, i, f, fp.length)
      | _, _ => none

/-- The rational value of a successful `float` parse. -/
def partsToRat (p : Bool × Nat × Nat × Nat) : ℚ :=
  (if p.1 then (-1 : ℚ) else 1) * ((p.2.1 : ℚ) + (p.2.2.1 : ℚ) / (10 : ℚ) ^ p.2.2.2)

/-- Model of Python `float(s)`: `some` of the exact rational value on
success, `none` where Python raises `ValueError`. -/
def pyFloat (s : String) : Option ℚ :=
  (pyFloatParts s).map partsToRat

/-- First-match association-list lookup (Python dict lookup; keys are
unique by construction in all dictionaries built below). -/
def alookup {β : Type} : List (String × β) → String → Option β
  | [], _ => none
  | (k, v) :: rest, key => if k = key then some v else alookup rest key

/-- Python `d.get(k, default)`. -/
def dictGetD {β : Type} (l : List (String × β)) (k : String) (d : β) : β :=
  (alookup l k).getD d

/-- Python `d[k] = v`: replace the value at an existing key in place,
else append the new binding (insertion order preserved). -/
def dictSet {β : Type} : List (String × β) → String → β → List (String × β)
  | [], k, v => [(k, v)]
  | (k', v') :: rest, k, v =>
    if k' = k then (k', v) :: rest else (k', v') :: dictSet rest k v

/-- Python `d.setdefault(k, []).append(a)`: append `a` to the group at key
`k`, creating the group at the end if absent. -/
def addToGroup {α : Type} : List (String × List α) → String → α → List (String × List α)
  | [], k, a => [(k, [a])]
  | (k', as) :: rest, k, a =>
    if k' = k then (k', as ++ [a]) :: rest else (k', as) :: addToGroup rest k a

/-- The group stored at key `k`, or `[]` when the key is absent. -/
def groupOfD {α : Type} (l : List (String × List α)) (k : String) : List α :=
  (alookup l k).getD []

/-- Total number of elements stored across all groups. -/
def sizeSum {α : Type} (l : List (String × List α)) : Nat :=
  (l.map (fun p => p.2.length)).sum

/-- The section key of a row: its trimmed first cell (`none` for a row with
zero cells). -/
def rowKey (r : Row) : Option String :=
  match r with
  | [] => none
  | c :: _ => some (pyStrip c)

/-- One iteration of the `parse_csv_sections` loop: skip an empty row, else
file the row under its trimmed first cell. -/
def secStep (secs : List (String × List Row)) (row : Row) : List (String × List Row) :=
  match row with
  | [] => secs
  | c :: _ => addToGroup secs (pyStrip c) row

/-- `PortfolioAnalyzer.parse_csv_sections` (`src/main.py` lines 48-60):
group the file's rows by the trimmed first cell, preserving order. -/
def parse_csv_sections (rows : List Row) : List (String × List Row) :=
  rows.foldl secStep []

/-- `{header[i]: cells[i] for i in range(min(len(header), len(cells)))}`:
zip field names against data cells, later duplicate names overwriting. -/
def buildRecord (header cells : List String) : Record :=
  (header.zip cells).foldl (fun r kv => dictSet r kv.1 kv.2) []

/-- One iteration of the `process_trades` extraction loop
(`src/main.py` lines 72-80): rows with fewer than 3 cells are skipped; a
header-tag row captures the trimmed cells from index 2 on; a data-tag row
emits a record when a header is active; all else is ignored. -/
def tradesStep (st : Option (List String) × List Record) (row : Row) :
    Option (List String) × List Record :=
  if row.length < 3 then st
  else
    let tag := pyLower (pyStrip (row.getD 1 ""))
    if tag = "header" then (some ((row.drop 2).map pyStrip), st.2)
    else if tag = "data" then
      match st.1 with
      | some header => (st.1, st.2 ++ [buildRecord header ((row.drop 2).map pyStrip)])
      | none => st
    else st

/-- The trade records extracted from the `Trades` section's rows. -/
def extractTrades (rows : List Row) : List Record :=
  (rows.foldl tradesStep (none, [])).2

/-- The grouping key of a trade under Python truthiness: `none` when the
`Symbol` field is absent or the empty string. -/
def symOf (t : Record) : Option String :=
  match alookup t "Symbol" with
  | none => none
  | some s => if s = "" then none else some s

/-- One iteration of the symbol-grouping loop (`src/main.py` lines 82-85):
`symbol = trade.get("Symbol"); if symbol: setdefault(symbol, []).append`. -/
def groupStep (acc : List (String × List Record)) (trade : Record) :
    List (String × List Record) :=
  match alookup trade "Symbol" with
  | none => acc
  | some s => if s = "" then acc else addToGroup acc s trade

/-- The symbol-grouping loop of `process_trades` (`src/main.py` lines
81-86) applied to a list of extracted trade records. -/
def group_trades (trades : List Record) : List (String × List Record) :=
  trades.foldl groupStep []

/-- `PortfolioAnalyzer.process_trades` (`src/main.py` lines 63-86):
extract trade records, then group them by their `Symbol` field. -/
def process_trades (rows : List Row) : List (String × List Record) :=
  group_trades (extractTrades rows)

/-- One iteration of the `process_realized_summary` loop
(`src/main.py` lines 97-104).  There is no row-length guard: `row[1]` on a
row with fewer than 2 cells raises `IndexError`, modelled as
`Except.error`. -/
def realizedStep (st : Option (List String) × List (String × Record)) (row : Row) :
    Except String (Option (List String) × List (String × Record)) :=
  match row.get? 1 with
  | none => Except.error "IndexError"
  | some c =>
    let tag := pyLower (pyStrip c)
    if tag = "header" then Except.ok (some ((row.drop 2).map pyStrip), st.2)
    else if tag = "data" then
      match st.1 with
      | some header =>
        let data := buildRecord header ((row.drop 2).map pyStrip)
        Except.ok (st.1, dictSet st.2 (dictGetD data "Symbol" "Unknown") data)
      | none => Except.ok st
    else Except.ok st

/-- `PortfolioAnalyzer.process_realized_summary` (`src/main.py` lines
88-105): build the symbol-keyed performance summary, propagating the
`IndexError` raised on a row with fewer than 2 cells. -/
def process_realized_summary (rows : List Row) :
    Except String (List (String × Record)) :=
  (rows.foldlM realizedStep (none, [])).map (fun st => st.2)

/-- `float(trade.get(k, "0"))` as an `Option`: the coerced value of a
trade's field, the absent field defaulting to the string `"0"`. -/
def fieldVal (trade : Record) (k : String) : Option ℚ :=
  pyFloat (dictGetD trade k "0")

/-- One iteration of the aggregation loop of `compute_asset_metrics`
(`src/main.py` lines 136-144): coerce `Quantity`, `T. Price`, `Comm/Fee`;
on any failure skip the trade, else accumulate the signed quantity and
`quantity*price - commission`. -/
def tradeStep (acc : ℚ × ℚ) (trade : Record) : ℚ × ℚ :=
  match fieldVal trade "Quantity", fieldVal trade "T. Price", fieldVal trade "Comm/Fee" with
  | some qty, some price, some comm => (acc.1 + qty, acc.2 + (qty * price - comm))
  | _, _, _ => acc

/-- The contribution of one trade to its symbol's totals (zero when the
trade is skipped). -/
def contrib (trade : Record) : ℚ × ℚ :=
  match fieldVal trade "Quantity", fieldVal trade "T. Price", fieldVal trade "Comm/Fee" with
  | some qty, some price, some comm => (qty, qty * price - comm)
  | _, _, _ => (0, 0)

/-- `(total_quantity, total_cost)` aggregated over one symbol's trades. -/
def assetTotals (trades : List Record) : ℚ × ℚ :=
  trades.foldl tradeStep (0, 0)

/-- The realized/unrealized totals merged for one symbol
(`src/main.py` lines 151-156): missing entry yields the empty record, and
a coercion failure of either field makes both default to zero together. -/
def mergePerformance (summary : List (String × Record)) (symbol : String) : ℚ × ℚ :=
  let rd := dictGetD summary symbol []
  match pyFloat (dictGetD rd "Realized Total" "0"),
        pyFloat (dictGetD rd "Unrealized Total" "0") with
  | some r, some u => (r, u)
  | _, _ => (0, 0)

/-- The per-symbol asset metrics record (`src/main.py` lines 158-168). -/
structure AssetMetrics where
  total_quantity : ℚ
  total_cost : ℚ
  avg_purchase_price : ℚ
  current_price : ℚ
  current_value : ℚ
  absolute_pl : ℚ
  percentage_return : Option ℚ
  realized_total : ℚ
  unrealized_total : ℚ
deriving DecidableEq

/-- The body of the per-symbol loop of
`PortfolioAnalyzer.compute_asset_metrics` (`src/main.py` lines 133-168). -/
def assetMetricsFor (prices : List (String × ℚ)) (summary : List (String × Record))
    (symbol : String) (trades : List Record) : AssetMetrics :=
  let t := assetTotals trades
  let avg := if t.1 ≠ 0 then t.2 / t.1 else 0
  let cp := dictGetD prices symbol avg
  let cv := t.1 * cp
  let pl := cv - t.2
  { total_quantity := t.1
    total_cost := t.2
    avg_purchase_price := avg
    current_price := cp
    current_value := cv
    absolute_pl := pl
    percentage_return := if t.2 ≠ 0 then some (pl / t.2 * 100) else none
    realized_total := (mergePerformance summary symbol).1
    unrealized_total := (mergePerformance summary symbol).2 }

/-- `PortfolioAnalyzer.compute_asset_metrics` (`src/main.py` lines
125-169) as a function of the price overrides, the performance summary and
the symbol-grouped trades. -/
def compute_asset_metrics (prices : List (String × ℚ))
    (summary : List (String × Record))
    (trades_by_symbol : List (String × List Record)) :
    List (String × AssetMetrics) :=
  trades_by_symbol.map (fun p => (p.1, assetMetricsFor prices summary p.1 p.2))

/-- The per-transaction metrics record (`src/main.py` lines 200-208). -/
structure TransactionMetrics where
  quantity : ℚ
  trade_price : ℚ
  cost : ℚ
  current_value : ℚ
  profit_loss : ℚ
  percentage_return : Option ℚ
  commission : ℚ
deriving DecidableEq

/-- The percentage return computed by `compute_transaction_metrics`
as a function of the coerced quantity, price and current price:
`profit_loss/cost*100` when the cost is nonzero (else `None`), negated for
a sell (negative quantity). -/
def txPct (qv pv cp : ℚ) : Option ℚ :=
  let cost := qv * pv
  let pct : Option ℚ := if cost ≠ 0 then some ((qv * cp - cost) / cost * 100) else none
  if qv < 0 then pct.map (fun x => -x) else pct

/-- `PortfolioAnalyzer.compute_transaction_metrics` (`src/main.py` lines
171-208).  The `try` guard covers only `Quantity` and `T. Price`
(failure returns `None`, modelled `Except.ok none`); the `Comm/Fee`
coercion on line 194 sits outside it, so its failure raises `ValueError`,
modelled `Except.error`. -/
def compute_transaction_metrics (trade : Record) (current_price : ℚ) :
    Except String (Option TransactionMetrics) :=
  match fieldVal trade "Quantity", fieldVal trade "T. Price" with
  | some qty, some trade_price =>
    let cost := qty * trade_price
    let current_val := qty * current_price
    let profit_loss := current_val - cost
    match fieldVal trade "Comm/Fee" with
    | none => Except.error "ValueError"
    | some commission =>
      Except.ok (some
        { quantity := qty
          trade_price := trade_price
          cost := cost
          current_value := current_val
          profit_loss := profit_loss
          percentage_return := txPct qty trade_price current_price
          commission := commission })
  | _, _ => Except.ok none

/-- Keep-first deduplication: the distinct elements of a list in order of
first occurrence, given an initial set of already-seen keys. -/
def keepFirst (seen : List String) : List String → List String
  | [] => []
  | s :: rest =>
    if s ∈ seen then keepFirst seen rest else s :: keepFirst (s :: seen) rest

/-- Whether an `Except` computation returned normally. -/
def isOkE {ε α : Type} : Except ε α → Bool
  | Except.ok _ => true
  | Except.error _ => false

/-- Optional-key grouping step: file `a` under its key when it has one,
else drop it.  Both the section splitter's and the symbol grouper's loop
bodies are instances of this shape. -/
def keyedStep {α : Type} (keyOf : α → Option String)
    (acc : List (String × List α)) (a : α) : List (String × List α) :=
  match keyOf a with
  | none => acc
  | some k => addToGroup acc k a

/-! Concrete inputs used by scenario claims, counterexamples and
witnesses. -/

/-- The `Trades` section of the C1 scenario: one header row and two `AAPL`
data rows. -/
def c1Rows : List Row :=
  [["Trades", "Header", "Symbol", "Quantity", "T. Price", "Comm/Fee"],
   ["Trades", "Data", "AAPL", "10", "100", "1"],
   ["Trades", "Data", "AAPL", "5", "110", "0.5"]]

/-- The first extracted trade record of the C1 scenario. -/
def c1Rec1 : Record :=
  [("Symbol", "AAPL"), ("Quantity", "10"), ("T. Price", "100"), ("Comm/Fee", "1")]

/-- The second extracted trade record of the C1 scenario. -/
def c1Rec2 : Record :=
  [("Symbol", "AAPL"), ("Quantity", "5"), ("T. Price", "110"), ("Comm/Fee", "0.5")]

/-- A buy of 10 at 100 with zero commission. -/
def c4Buy : Record := [("Quantity", "10"), ("T. Price", "100"), ("Comm/Fee", "0")]

/-- A sell of 10 at 110 with zero commission. -/
def c4Sell : Record := [("Quantity", "-10"), ("T. Price", "110"), ("Comm/Fee", "0")]

/-- A buy of 10 at 100 and a sell of 10 at 110: the position nets to zero
quantity with nonzero accumulated cost. -/
def c4Trades : List Record := [c4Buy, c4Sell]

/-- A single trade carrying only a quantity. -/
def c4OneTrade : Record := [("Quantity", "10")]

/-- A one-cell row: just a section name, no tag cell. -/
def c3ShortRow : Row := ["Realized & Unrealized Performance Summary"]

/-- A well-formed two-row performance-summary section. -/
def c3OkRows : List Row :=
  [["Perf", "Header", "Symbol", "Realized Total", "Unrealized Total"],
   ["Perf", "Data", "AAPL", "3", "4"]]

/-- A trade whose `Comm/Fee` cell is not numeric. -/
def c2BadTrade : Record := [("Quantity", "3"), ("T. Price", "4"), ("Comm/Fee", "x")]

/-- A trade with all three numeric fields present. -/
def c2GoodTrade : Record := [("Quantity", "1"), ("T. Price", "2"), ("Comm/Fee", "7")]

/-- A sell trade (negative quantity) whose `Comm/Fee` cell is not numeric. -/
def c6BadTrade : Record := [("Quantity", "-1"), ("T. Price", "2"), ("Comm/Fee", "x")]

/-- A sell trade with all three numeric fields present. -/
def c6SellTrade : Record := [("Quantity", "-2"), ("T. Price", "3"), ("Comm/Fee", "1")]

/-- A performance summary whose `AAPL` entry has a non-numeric
`Realized Total`. -/
def c7Summary : List (String × Record) :=
  [("AAPL", [("Realized Total", "x"), ("Unrealized Total", "5")])]

/-- Trade records exercising absent, empty and repeated `Symbol` fields. -/
def c9Trades : List Record :=
  [[("Symbol", "AAPL"), ("Quantity", "1")],
   [("Quantity", "2")],
   [("Symbol", ""), ("Quantity", "3")],
   [("Symbol", "MSFT"), ("Quantity", "4")],
   [("Symbol", "AAPL"), ("Quantity", "5")]]

/-- A trade record with no `Comm/Fee` key at all. -/
def c10Trade : Record := [("Quantity", "10"), ("T. Price", "100")]

/-! Association-group lemmas. -/

theorem alookup_addToGroup_self {α : Type} (l : List (String × List α)) (k : String) (a : α) :
    alookup (addToGroup l k a) k = some (groupOfD l k ++ [a]) := by
  induction l with
  | nil => simp [addToGroup, alookup, groupOfD]
  | cons p rest ih =>
    obtain ⟨k₀, as⟩ := p
    by_cases h : k₀ = k
    · subst h
      simp [addToGroup, alookup, groupOfD]
    · simp [addToGroup, alookup, groupOfD, h, ih]

theorem alookup_addToGroup_ne {α : Type} (l : List (String × List α)) {k k' : String} (a : α)
    (h : k' ≠ k) : alookup (addToGroup l k a) k' = alookup l k' := by
  induction l with
  | nil => simp [addToGroup, alookup, Ne.symm h]
  | cons p rest ih =>
    obtain ⟨k₀, as⟩ := p
    by_cases hk : k₀ = k
    · subst hk
      have : k₀ ≠ k' := fun hh => h hh.symm
      simp [addToGroup, alookup, this]
    · by_cases hk' : k₀ = k'
      · subst hk'
        simp [addToGroup, alookup, hk]
      · simp [addToGroup, alookup, hk, hk', ih]

theorem keys_addToGroup {α : Type} (l : List (String × List α)) (k : String) (a : α) :
    (addToGroup l k a).map Prod.fst =
      if k ∈ l.map Prod.fst then l.map Prod.fst else l.map Prod.fst ++ [k] := by
  induction l with
  | nil => simp [addToGroup]
  | cons p rest ih =>
    obtain ⟨k₀, as⟩ := p
    by_cases hk : k₀ = k
    · subst hk
      simp [addToGroup]
    · by_cases hmem : k ∈ rest.map Prod.fst
      · simp [addToGroup, hk, ih, hmem, Ne.symm hk]
      · simp [addToGroup, hk, ih, hmem, Ne.symm hk]

theorem sizeSum_addToGroup {α : Type} (l : List (String × List α)) (k : String) (a : α) :
    sizeSum (addToGroup l k a) = sizeSum l + 1 := by
  induction l with
  | nil => simp [addToGroup, sizeSum]
  | cons p rest ih =>
    obtain ⟨k₀, as⟩ := p
    by_cases hk : k₀ = k
    · subst hk
      simp [addToGroup, sizeSum]
      omega
    · simp [addToGroup, hk, sizeSum] at ih ⊢
      omega

/-! `keepFirst` lemmas. -/

theorem keepFirst_congr (l : List String) : ∀ s₁ s₂ : List String,
    (∀ x, x ∈ s₁ ↔ x ∈ s₂) → keepFirst s₁ l = keepFirst s₂ l := by
  induction l with
  | nil => intro s₁ s₂ _; rfl
  | cons a l ih =>
    intro s₁ s₂ h
    by_cases ha : a ∈ s₁
    · simp [keepFirst, ha, (h a).mp ha, ih s₁ s₂ h]
    · have ha₂ : a ∉ s₂ := fun hh => ha ((h a).mpr hh)
      have hext : ∀ x, x ∈ a :: s₁ ↔ x ∈ a :: s₂ := by
        intro x
        simp [List.mem_cons, h x]
      simp [keepFirst, ha, ha₂, ih (a :: s₁) (a :: s₂) hext]

theorem keepFirst_mem_sub (l : List String) : ∀ seen x, x ∈ keepFirst seen l → x ∈ l := by
  induction l with
  | nil => intro seen x h; simp [keepFirst] at h
  | cons a l ih =>
    intro seen x h
    by_cases ha : a ∈ seen
    · simp [keepFirst, ha] at h
      exact List.mem_cons_of_mem _ (ih seen x h)
    · simp [keepFirst, ha] at h
      rcases h with h | h
      · simp [h]
      · exact List.mem_cons_of_mem _ (ih (a :: seen) x h)

theorem keepFirst_nodup (l : List String) : ∀ seen,
    (keepFirst seen l).Nodup ∧ ∀ x ∈ keepFirst seen l, x ∉ seen := by
  induction l with
  | nil => intro seen; simp [keepFirst]
  | cons a l ih =>
    intro seen
    by_cases ha : a ∈ seen
    · simpa [keepFirst, ha] using ih seen
    · obtain ⟨hnd, hni⟩ := ih (a :: seen)
      refine ⟨?_, ?_⟩
      · simp only [keepFirst, ha, if_false]
        refine List.Nodup.cons ?_ hnd
        intro hmem
        exact (hni a hmem) (List.mem_cons_self a seen)
      · intro x hx
        simp only [keepFirst, ha, if_false, List.mem_cons] at hx
        rcases hx with rfl | hx
        · exact ha
        · intro hxseen
          exact (hni x hx) (List.mem_cons_of_mem _ hxseen)

/-! Characterization of keyed grouping folds. -/

theorem groupOfD_keyedFold {α : Type} (keyOf : α → Option String) (l : List α) :
    ∀ (init : List (String × List α)) (k : String),
      groupOfD (l.foldl (keyedStep keyOf) init) k =
        groupOfD init k ++ l.filter (fun a => decide (keyOf a = some k)) := by
  induction l with
  | nil => intro init k; simp
  | cons a l ih =>
    intro init k
    rw [List.foldl_cons, ih]
    cases h : keyOf a with
    | none => simp [keyedStep, h, List.filter_cons]
    | some k₀ =>
      by_cases hk : k₀ = k
      · subst hk
        have hsome : groupOfD (addToGroup init k₀ a) k₀ = groupOfD init k₀ ++ [a] := by
          simp [groupOfD, alookup_addToGroup_self]
        simp [keyedStep, h, List.filter_cons, hsome]
      · have hne : groupOfD (addToGroup init k₀ a) k = groupOfD init k := by
          simp [groupOfD, alookup_addToGroup_ne _ a (Ne.symm hk)]
        simp [keyedStep, h, List.filter_cons, hk, hne]

theorem sizeSum_keyedFold {α : Type} (keyOf : α → Option String) (l : List α) :
    ∀ init : List (String × List α),
      sizeSum (l.foldl (keyedStep keyOf) init) =
        sizeSum init + (l.filter (fun a => (keyOf a).isSome)).length := by
  induction l with
  | nil => intro init; simp
  | cons a l ih =>
    intro init
    rw [List.foldl_cons, ih]
    cases h : keyOf a with
    | none => simp [keyedStep, h, List.filter_cons]
    | some k₀ =>
      simp [keyedStep, h, List.filter_cons, sizeSum_addToGroup]
      omega

theorem keys_keyedFold {α : Type} (keyOf : α → Option String) (l : List α) :
    ∀ init : List (String × List α),
      (l.foldl (keyedStep keyOf) init).map Prod.fst =
        init.map Prod.fst ++ keepFirst (init.map Prod.fst) (l.filterMap keyOf) := by
  induction l with
  | nil => intro init; simp [keepFirst]
  | cons a l ih =>
    intro init
    rw [List.foldl_cons, ih]
    cases h : keyOf a with
    | none => simp [keyedStep, h, List.filterMap_cons]
    | some k₀ =>
      by_cases hmem : k₀ ∈ init.map Prod.fst
      · have : (addToGroup init k₀ a).map Prod.fst = init.map Prod.fst := by
          simp [keys_addToGroup, hmem]
        simp [keyedStep, h, List.filterMap_cons, this, keepFirst, hmem]
      · have hkeys : (addToGroup init k₀ a).map Prod.fst = init.map Prod.fst ++ [k₀] := by
          simp [keys_addToGroup, hmem]
        have hcongr : keepFirst (init.map Prod.fst ++ [k₀]) (l.filterMap keyOf) =
            keepFirst (k₀ :: init.map Prod.fst) (l.filterMap keyOf) := by
          refine keepFirst_congr _ _ _ (fun x => ?_)
          simp [List.mem_append, List.mem_cons, or_comm]
        simp [keyedStep, h, List.filterMap_cons, hkeys, hcongr, keepFirst, hmem]

/-! The two grouping loops are instances of `keyedStep`. -/

theorem secStep_eq (secs : List (String × List Row)) (row : Row) :
    secStep secs row = keyedStep rowKey secs row := by
  cases row <;> rfl

theorem groupStep_eq (acc : List (String × List Record)) (t : Record) :
    groupStep acc t = keyedStep symOf acc t := by
  unfold groupStep keyedStep symOf
  cases alookup t "Symbol" with
  | none => rfl
  | some s => by_cases h : s = "" <;> simp [h]

theorem parse_csv_sections_eq (rows : List Row) :
    parse_csv_sections rows = rows.foldl (keyedStep rowKey) [] :=
  List.foldl_ext _ _ _ (fun acc b _ => secStep_eq acc b)

theorem group_trades_eq (trades : List Record) :
    group_trades trades = trades.foldl (keyedStep symOf) [] :=
  List.foldl_ext _ _ _ (fun acc b _ => groupStep_eq acc b)

/-! Evaluation helpers for `pyFloat`. -/

theorem pyFloat_isNone {s : String} (h : pyFloatParts s = none) : pyFloat s = none := by
  simp [pyFloat, h]

theorem pyFloat_natLit {s : String} {i : Nat} (h : pyFloatParts s = some (false, i, 0, 0)) :
    pyFloat s = some (i : ℚ) := by
  simp [pyFloat, h, partsToRat]

theorem pyFloat_negNatLit {s : String} {i : Nat} (h : pyFloatParts s = some (true, i, 0, 0)) :
    pyFloat s = some (-(i : ℚ)) := by
  simp [pyFloat, h, partsToRat]

theorem pyFloat_eval {s : String} {b : Bool} {i f k : Nat}
    (h : pyFloatParts s = some (b, i, f, k)) :
    pyFloat s = some ((if b then (-1 : ℚ) else 1) * ((i : ℚ) + (f : ℚ) / (10 : ℚ) ^ k)) := by
  simp [pyFloat, h, partsToRat]

theorem fieldVal_eq {t : Record} {k v : String} (h : dictGetD t k "0" = v) :
    fieldVal t k = pyFloat v := by
  rw [fieldVal, h]

theorem fieldVal_natCast (t : Record) (k v : String) (i : Nat)
    (h1 : dictGetD t k "0" = v) (h2 : pyFloatParts v = some (false, i, 0, 0)) :
    fieldVal t k = some (i : ℚ) := by
  rw [fieldVal, h1]
  exact pyFloat_natLit h2

theorem fieldVal_negNatCast (t : Record) (k v : String) (i : Nat)
    (h1 : dictGetD t k "0" = v) (h2 : pyFloatParts v = some (true, i, 0, 0)) :
    fieldVal t k = some (-(i : ℚ)) := by
  rw [fieldVal, h1]
  exact pyFloat_negNatLit h2

theorem fieldVal_none (t : Record) (k v : String)
    (h1 : dictGetD t k "0" = v) (h2 : pyFloatParts v = none) :
    fieldVal t k = none := by
  rw [fieldVal, h1]
  exact pyFloat_isNone h2

theorem fieldVal_parts (t : Record) (k v : String) (b : Bool) (i f n : Nat)
    (h1 : dictGetD t k "0" = v) (h2 : pyFloatParts v = some (b, i, f, n)) :
    fieldVal t k = some ((if b then (-1 : ℚ) else 1) * ((i : ℚ) + (f : ℚ) / (10 : ℚ) ^ n)) := by
  rw [fieldVal, h1]
  exact pyFloat_eval h2

/-! Short trade rows are skipped without effect. -/

theorem tradesStep_short {st : Option (List String) × List Record} {r : Row}
    (h : r.length < 3) : tradesStep st r = st := by
  simp [tradesStep, h]

theorem foldl_tradesStep_filter (rows : List Row) :
    ∀ st, (rows.filter (fun r => decide (3 ≤ r.length))).foldl tradesStep st =
      rows.foldl tradesStep st := by
  induction rows with
  | nil => intro st; rfl
  | cons r rs ih =>
    intro st
    by_cases h : 3 ≤ r.length
    · rw [List.filter_cons_of_pos (by simpa using h), List.foldl_cons, List.foldl_cons]
      exact ih _
    · have hshort : r.length < 3 := by omega
      rw [List.filter_cons_of_neg (by simpa using h), List.foldl_cons,
        tradesStep_short hshort]
      exact ih st

/-! The realized-summary loop returns normally exactly when every row can
supply a tag cell. -/

theorem realizedStep_cons (st : Option (List String) × List (String × Record))
    (a b : String) (rest : List String) :
    realizedStep st (a :: b :: rest) =
      (if pyLower (pyStrip b) = "header"
        then Except.ok (some ((((a :: b :: rest) : Row).drop 2).map pyStrip), st.2)
        else if pyLower (pyStrip b) = "data" then
          match st.1 with
          | some header =>
            Except.ok (st.1, dictSet st.2
              (dictGetD (buildRecord header ((((a :: b :: rest) : Row).drop 2).map pyStrip))
                "Symbol" "Unknown")
              (buildRecord header ((((a :: b :: rest) : Row).drop 2).map pyStrip)))
          | none => Except.ok st
        else Except.ok st) := rfl

theorem realizedStep_ok (st : Option (List String) × List (String × Record)) (r : Row)
    (h : 2 ≤ r.length) : ∃ st', realizedStep st r = Except.ok st' := by
  rcases r with _ | ⟨a, _ | ⟨b, rest⟩⟩
  · simp at h
  · simp at h
  · rw [realizedStep_cons]
    split_ifs with h1 h2
    · exact ⟨_, rfl⟩
    · obtain ⟨st1, st2⟩ := st
      cases st1 with
      | none => exact ⟨_, rfl⟩
      | some header => exact ⟨_, rfl⟩
    · exact ⟨_, rfl⟩

theorem foldlM_realized_ok (rows : List Row) :
    ∀ st, (∀ r ∈ rows, 2 ≤ r.length) →
      ∃ st', List.foldlM realizedStep st rows = Except.ok st' := by
  induction rows with
  | nil => intro st _; exact ⟨st, rfl⟩
  | cons r rs ih =>
    intro st h
    obtain ⟨st1, h1⟩ := realizedStep_ok st r (h r (List.mem_cons_self r rs))
    obtain ⟨st2, h2⟩ := ih st1 (fun x hx => h x (List.mem_cons_of_mem r hx))
    refine ⟨st2, ?_⟩
    rw [List.foldlM_cons, h1]
    exact h2

/-! Aggregation is a sum of per-trade contributions. -/

theorem tradeStep_add (acc : ℚ × ℚ) (t : Record) : tradeStep acc t = acc + contrib t := by
  unfold tradeStep contrib
  cases fieldVal t "Quantity" <;> cases fieldVal t "T. Price" <;>
    cases fieldVal t "Comm/Fee" <;>
      simp [Prod.ext_iff]

theorem foldl_tradeStep (l : List Record) :
    ∀ acc : ℚ × ℚ, l.foldl tradeStep acc = acc + (l.map contrib).sum := by
  induction l with
  | nil => intro acc; simp
  | cons t l ih =>
    intro acc
    rw [List.foldl_cons, ih, tradeStep_add, List.map_cons, List.sum_cons, add_assoc]

theorem assetTotals_eq_sum (l : List Record) : assetTotals l = (l.map contrib).sum := by
  unfold assetTotals
  rw [foldl_tradeStep]
  exact zero_add _

theorem assetTotals_perm {l₁ l₂ : List Record} (h : l₁.Perm l₂) :
    assetTotals l₁ = assetTotals l₂ := by
  rw [assetTotals_eq_sum, assetTotals_eq_sum, (h.map contrib).sum_eq]

/-! Claim theorems. -/

/-- C8: section splitting is a pure partition.  For every key, the group
stored at that key is exactly the subsequence of rows whose trimmed first
cell is that key (so rows with zero cells are discarded, no other row is
dropped, and order within each group is preserved); the total number of
rows stored across the groups equals the number of non-blank input rows;
and the group keys are pairwise distinct, so every non-blank row appears
in exactly one group. -/
theorem parse_csv_sections_partition (rows : List Row) :
    (∀ k : String, groupOfD (parse_csv_sections rows) k =
        rows.filter (fun r => decide (rowKey r = some k))) ∧
    sizeSum (parse_csv_sections rows) = (rows.filter (fun r => !r.isEmpty)).length ∧
    ((parse_csv_sections rows).map Prod.fst).Nodup := by
  refine ⟨fun k => ?_, ?_, ?_⟩
  · rw [parse_csv_sections_eq, groupOfD_keyedFold]
    simp [groupOfD, alookup]
  · rw [parse_csv_sections_eq, sizeSum_keyedFold]
    have hfe : rows.filter (fun r => (rowKey r).isSome) =
        rows.filter (fun r => !r.isEmpty) := by
      apply List.filter_congr
      intro r _
      cases r <;> simp [rowKey]
    rw [hfe]
    simp [sizeSum]
  · rw [parse_csv_sections_eq, keys_keyedFold]
    simpa using (keepFirst_nodup (rows.filterMap rowKey) []).1

/-- C9: the symbol grouper drops exactly the records whose `Symbol` field
is absent or empty.  `process_trades` is extraction followed by grouping;
no group is keyed by the empty string; for every nonempty key the group is
exactly the records carrying that `Symbol` value, in input order; and the
group keys are the distinct symbols in order of first occurrence. -/
theorem group_trades_symbol_grouping :
    (∀ rows : List Row, process_trades rows = group_trades (extractTrades rows)) ∧
    ∀ trades : List Record,
      (∀ p ∈ group_trades trades, p.1 ≠ "") ∧
      (∀ k : String, k ≠ "" → groupOfD (group_trades trades) k =
          trades.filter (fun t => decide (alookup t "Symbol" = some k))) ∧
      (group_trades trades).map Prod.fst = keepFirst [] (trades.filterMap symOf) := by
  refine ⟨fun rows => rfl, fun trades => ?_⟩
  have hkeys : (group_trades trades).map Prod.fst =
      keepFirst [] (trades.filterMap symOf) := by
    rw [group_trades_eq, keys_keyedFold]
    simp
  refine ⟨?_, ?_, hkeys⟩
  · intro p hp
    have hmem : p.1 ∈ (group_trades trades).map Prod.fst := List.mem_map_of_mem _ hp
    rw [hkeys] at hmem
    obtain ⟨t, _, ht⟩ := List.mem_filterMap.mp (keepFirst_mem_sub _ _ _ hmem)
    cases halook : alookup t "Symbol" with
    | none => rw [symOf, halook] at ht; simp at ht
    | some s =>
      rw [symOf, halook] at ht
      by_cases hs : s = ""
      · simp [hs] at ht
      · simp [hs] at ht
        exact ht ▸ hs
  · intro k hk
    rw [group_trades_eq, groupOfD_keyedFold]
    have hnil : groupOfD ([] : List (String × List Record)) k = [] := by
      simp [groupOfD, alookup]
    rw [hnil, List.nil_append]
    apply List.filter_congr
    intro t _
    cases h : alookup t "Symbol" with
    | none => simp [symOf, h]
    | some s =>
      by_cases hs : s = ""
      · simp [symOf, h, hs, Ne.symm hk]
      · simp [symOf, h, hs]

/-- Witness for C9 at a concrete trade list: the record without a `Symbol`
key and the record with an empty `Symbol` are in no group, the two `AAPL`
records form the `AAPL` group in order, and the keys are the symbols in
first-seen order. -/
theorem group_trades_symbol_grouping_witness :
    groupOfD (group_trades c9Trades) "AAPL" =
      [[("Symbol", "AAPL"), ("Quantity", "1")], [("Symbol", "AAPL"), ("Quantity", "5")]] ∧
    (group_trades c9Trades).map Prod.fst = ["AAPL", "MSFT"] := by
  constructor
  · rw [(group_trades_symbol_grouping.2 c9Trades).2.1 "AAPL" (by decide)]
    decide
  · rw [(group_trades_symbol_grouping.2 c9Trades).2.2]
    decide

/-- C5: aggregation is order-independent: permuting one symbol's trade
list leaves total_quantity and total_cost unchanged. -/
theorem asset_totals_perm_invariant (prices : List (String × ℚ))
    (summary : List (String × Record)) (symbol : String)
    {trades₁ trades₂ : List Record} (h : trades₁.Perm trades₂) :
    (assetMetricsFor prices summary symbol trades₁).total_quantity =
      (assetMetricsFor prices summary symbol trades₂).total_quantity ∧
    (assetMetricsFor prices summary symbol trades₁).total_cost =
      (assetMetricsFor prices summary symbol trades₂).total_cost := by
  have ht := assetTotals_perm h
  constructor <;> simp [assetMetricsFor, ht]

/-- Witness for C5: swapping the two C1 trades leaves both totals
unchanged. -/
theorem asset_totals_perm_invariant_witness :
    (assetMetricsFor [] [] "AAPL" [c1Rec1, c1Rec2]).total_quantity =
      (assetMetricsFor [] [] "AAPL" [c1Rec2, c1Rec1]).total_quantity ∧
    (assetMetricsFor [] [] "AAPL" [c1Rec1, c1Rec2]).total_cost =
      (assetMetricsFor [] [] "AAPL" [c1Rec2, c1Rec1]).total_cost :=
  asset_totals_perm_invariant [] [] "AAPL" (List.Perm.swap c1Rec2 c1Rec1 [])

/-- C3 (amended): in the `Trades` section, rows with fewer than 3 cells
are skipped without emitting a record and without failing (filtering them
away does not change the result), but `process_realized_summary` has no
such guard: it returns normally when every row has at least 2 cells,
while a shorter row raises an uncaught `IndexError` (see the
counterexample). -/
theorem short_row_handling :
    (∀ rows : List Row,
        process_trades (rows.filter (fun r => decide (3 ≤ r.length))) =
          process_trades rows) ∧
    (∀ rows : List Row, (∀ r ∈ rows, 2 ≤ r.length) →
        isOkE (process_realized_summary rows) = true) := by
  constructor
  · intro rows
    show group_trades (extractTrades (rows.filter fun r => decide (3 ≤ r.length))) =
      group_trades (extractTrades rows)
    unfold extractTrades
    rw [foldl_tradesStep_filter]
  · intro rows h
    obtain ⟨st, hst⟩ := foldlM_realized_ok rows (none, []) h
    unfold process_realized_summary
    rw [hst]
    rfl

/-- C3 counterexample: a row holding only the section name (one cell) in
the performance-summary section makes the pipeline fail with an
`IndexError` instead of being skipped. -/
theorem short_row_crash :
    process_realized_summary [c3ShortRow] = Except.error "IndexError" := rfl

/-- Witness for C3: a two-row performance summary whose rows all have at
least 2 cells is processed without error. -/
theorem short_row_handling_witness :
    isOkE (process_realized_summary c3OkRows) = true :=
  short_row_handling.2 c3OkRows (by decide)


/-- C1: on the scenario input (header `Symbol,Quantity,T. Price,Comm/Fee`,
two `AAPL` data rows with quantities 10 and 5, prices 100 and 110,
commissions 1 and 0.5) the computed `AAPL` metrics have
total_quantity = 15, total_cost = 1548.5 and
avg_purchase_price = 1548.5/15. -/
theorem aapl_scenario_metrics :
    (alookup (compute_asset_metrics [] []
        (process_trades (groupOfD (parse_csv_sections c1Rows) "Trades"))) "AAPL").map
      (fun m => (m.total_quantity, m.total_cost, m.avg_purchase_price)) =
    some (15, 3097 / 2, 3097 / 30) := by
  have hstage : process_trades (groupOfD (parse_csv_sections c1Rows) "Trades") =
      [("AAPL", [c1Rec1, c1Rec2])] := by decide
  rw [hstage]
  have h1 : fieldVal c1Rec1 "Quantity" = some 10 := by
    rw [fieldVal_natCast c1Rec1 "Quantity" "10" 10 (by decide) (by decide)]
    norm_num
  have h2 : fieldVal c1Rec1 "T. Price" = some 100 := by
    rw [fieldVal_natCast c1Rec1 "T. Price" "100" 100 (by decide) (by decide)]
    norm_num
  have h3 : fieldVal c1Rec1 "Comm/Fee" = some 1 := by
    rw [fieldVal_natCast c1Rec1 "Comm/Fee" "1" 1 (by decide) (by decide)]
    norm_num
  have h4 : fieldVal c1Rec2 "Quantity" = some 5 := by
    rw [fieldVal_natCast c1Rec2 "Quantity" "5" 5 (by decide) (by decide)]
    norm_num
  have h5 : fieldVal c1Rec2 "T. Price" = some 110 := by
    rw [fieldVal_natCast c1Rec2 "T. Price" "110" 110 (by decide) (by decide)]
    norm_num
  have h6 : fieldVal c1Rec2 "Comm/Fee" = some (1 / 2) := by
    rw [fieldVal_parts c1Rec2 "Comm/Fee" "0.5" false 0 5 1 (by decide) (by decide)]
    norm_num
  have htot : assetTotals [c1Rec1, c1Rec2] = (15, 3097 / 2) := by
    simp [assetTotals, tradeStep, h1, h2, h3, h4, h5, h6]
    norm_num
  simp [compute_asset_metrics, assetMetricsFor, htot, alookup]
  norm_num

/-- C4 (amended): for a symbol absent from the price-override map,
current_price always equals avg_purchase_price exactly, and absolute_pl
is exactly 0 whenever total_quantity is nonzero (a position netting to
zero quantity with nonzero cost has absolute_pl = -total_cost instead;
see the counterexample). -/
theorem no_override_price_metrics (prices : List (String × ℚ))
    (summary : List (String × Record)) (symbol : String) (trades : List Record)
    (h : alookup prices symbol = none) :
    (assetMetricsFor prices summary symbol trades).current_price =
      (assetMetricsFor prices summary symbol trades).avg_purchase_price ∧
    ((assetMetricsFor prices summary symbol trades).total_quantity ≠ 0 →
      (assetMetricsFor prices summary symbol trades).absolute_pl = 0) := by
  constructor
  · simp [assetMetricsFor, dictGetD, h]
  · intro hq
    simp only [assetMetricsFor] at hq
    simp only [assetMetricsFor, dictGetD, h, Option.getD_none]
    rw [if_pos hq, mul_comm, div_mul_cancel₀ _ hq, sub_self]

/-- C4 counterexample: with no price override, a position of +10 at 100
and -10 at 110 (zero net quantity, total_cost = -100) yields
absolute_pl = 100, not 0, even though current_price still equals
avg_purchase_price. -/
theorem no_override_price_cex :
    alookup ([] : List (String × ℚ)) "AAPL" = none ∧
    (assetMetricsFor [] [] "AAPL" c4Trades).absolute_pl = 100 ∧
    (assetMetricsFor [] [] "AAPL" c4Trades).absolute_pl ≠ 0 := by
  have hb1 : fieldVal c4Buy "Quantity" = some 10 := by
    rw [fieldVal_natCast c4Buy "Quantity" "10" 10 (by decide) (by decide)]
    norm_num
  have hb2 : fieldVal c4Buy "T. Price" = some 100 := by
    rw [fieldVal_natCast c4Buy "T. Price" "100" 100 (by decide) (by decide)]
    norm_num
  have hb3 : fieldVal c4Buy "Comm/Fee" = some 0 := by
    rw [fieldVal_natCast c4Buy "Comm/Fee" "0" 0 (by decide) (by decide)]
    norm_num
  have hs1 : fieldVal c4Sell "Quantity" = some (-10) := by
    rw [fieldVal_negNatCast c4Sell "Quantity" "-10" 10 (by decide) (by decide)]
    norm_num
  have hs2 : fieldVal c4Sell "T. Price" = some 110 := by
    rw [fieldVal_natCast c4Sell "T. Price" "110" 110 (by decide) (by decide)]
    norm_num
  have hs3 : fieldVal c4Sell "Comm/Fee" = some 0 := by
    rw [fieldVal_natCast c4Sell "Comm/Fee" "0" 0 (by decide) (by decide)]
    norm_num
  have htot : assetTotals c4Trades = (0, -100) := by
    simp [c4Trades, assetTotals, tradeStep, hb1, hb2, hb3, hs1, hs2, hs3]
    norm_num
  refine ⟨rfl, ?_, ?_⟩ <;>
    simp [assetMetricsFor, htot, dictGetD, alookup]

/-- Witness for C4: a single-trade position with nonzero quantity and no
price override has current_price = avg_purchase_price and
absolute_pl = 0. -/
theorem no_override_price_metrics_witness :
    (assetMetricsFor [] [] "AAPL" [c4OneTrade]).current_price =
      (assetMetricsFor [] [] "AAPL" [c4OneTrade]).avg_purchase_price ∧
    (assetMetricsFor [] [] "AAPL" [c4OneTrade]).absolute_pl = 0 := by
  have h := no_override_price_metrics [] [] "AAPL" [c4OneTrade] rfl
  have hq : fieldVal c4OneTrade "Quantity" = some 10 := by
    rw [fieldVal_natCast c4OneTrade "Quantity" "10" 10 (by decide) (by decide)]
    norm_num
  have hp : fieldVal c4OneTrade "T. Price" = some 0 := by
    rw [fieldVal_natCast c4OneTrade "T. Price" "0" 0 (by decide) (by decide)]
    norm_num
  have hc : fieldVal c4OneTrade "Comm/Fee" = some 0 := by
    rw [fieldVal_natCast c4OneTrade "Comm/Fee" "0" 0 (by decide) (by decide)]
    norm_num
  have htot : assetTotals [c4OneTrade] = (10, 0) := by
    simp [assetTotals, tradeStep, hq, hp, hc]
  refine ⟨h.1, h.2 ?_⟩
  simp [assetMetricsFor, htot]

/-- C7: a symbol with no performance-summary entry gets zero for both
realized and unrealized totals, and when the entry exists but either
`Realized Total` or `Unrealized Total` fails to coerce, both totals
default to zero together. -/
theorem performance_merge_defaults (prices : List (String × ℚ))
    (summary : List (String × Record)) (symbol : String) (trades : List Record) :
    (alookup summary symbol = none →
        (assetMetricsFor prices summary symbol trades).realized_total = 0 ∧
        (assetMetricsFor prices summary symbol trades).unrealized_total = 0) ∧
    (∀ rd : Record, alookup summary symbol = some rd →
        (pyFloat (dictGetD rd "Realized Total" "0") = none ∨
          pyFloat (dictGetD rd "Unrealized Total" "0") = none) →
        (assetMetricsFor prices summary symbol trades).realized_total = 0 ∧
        (assetMetricsFor prices summary symbol trades).unrealized_total = 0) := by
  constructor
  · intro h
    have hrd : dictGetD summary symbol [] = [] := by
      simp [dictGetD, h]
    have h0 : pyFloat "0" = some 0 := by
      rw [pyFloat_natLit (show pyFloatParts "0" = some (false, 0, 0, 0) by decide)]
      norm_num
    have hg1 : dictGetD ([] : Record) "Realized Total" "0" = "0" := rfl
    have hg2 : dictGetD ([] : Record) "Unrealized Total" "0" = "0" := rfl
    have hm : mergePerformance summary symbol = (0, 0) := by
      rw [mergePerformance]
      rw [hrd, hg1, hg2, h0]
    constructor <;> simp [assetMetricsFor, hm]
  · intro rd hrd hor
    have hrd' : dictGetD summary symbol [] = rd := by
      simp [dictGetD, hrd]
    have hm : mergePerformance summary symbol = (0, 0) := by
      rw [mergePerformance, hrd']
      rcases hor with hx | hx
      · rw [hx]
      · cases hfirst : pyFloat (dictGetD rd "Realized Total" "0") with
        | none => rfl
        | some r => rw [hx]
    constructor <;> simp [assetMetricsFor, hm]

/-- Witness for C7: `MSFT` has no entry in the concrete summary and gets
zeros; the `AAPL` entry has a non-numeric `Realized Total` and both its
totals resolve to zero. -/
theorem performance_merge_defaults_witness :
    ((assetMetricsFor [] c7Summary "MSFT" []).realized_total = 0 ∧
      (assetMetricsFor [] c7Summary "MSFT" []).unrealized_total = 0) ∧
    ((assetMetricsFor [] c7Summary "AAPL" []).realized_total = 0 ∧
      (assetMetricsFor [] c7Summary "AAPL" []).unrealized_total = 0) := by
  constructor
  · exact (performance_merge_defaults [] c7Summary "MSFT" []).1 (by decide)
  · exact (performance_merge_defaults [] c7Summary "AAPL" []).2
      [("Realized Total", "x"), ("Unrealized Total", "5")] (by decide)
      (Or.inl (by
        rw [show dictGetD [("Realized Total", "x"), ("Unrealized Total", "5")]
            "Realized Total" "0" = "x" by decide]
        exact pyFloat_isNone (by decide)))

/-- C2 (amended): the `Comm/Fee` coercion in `compute_transaction_metrics`
sits outside the `Quantity`/`T. Price` guard, but a non-numeric `Comm/Fee`
raises `ValueError` (no result) rather than defaulting to 0; when the
coercion succeeds the returned record carries the commission, and the
cost, current_value, profit_loss and percentage_return fields are
expressions in quantity, price and current price alone, untouched by the
commission. -/
theorem commission_coercion (t : Record) (cp qv pv : ℚ)
    (hq : fieldVal t "Quantity" = some qv) (hp : fieldVal t "T. Price" = some pv) :
    (fieldVal t "Comm/Fee" = none →
      compute_transaction_metrics t cp = Except.error "ValueError") ∧
    (∀ c : ℚ, fieldVal t "Comm/Fee" = some c →
      compute_transaction_metrics t cp = Except.ok (some
        { quantity := qv, trade_price := pv, cost := qv * pv, current_value := qv * cp,
          profit_loss := qv * cp - qv * pv, percentage_return := txPct qv pv cp,
          commission := c })) := by
  constructor
  · intro hc
    simp [compute_transaction_metrics, hq, hp, hc]
  · intro c hc
    simp [compute_transaction_metrics, hq, hp, hc]

/-- C2 counterexample: a trade with numeric `Quantity` and `T. Price` but
non-numeric `Comm/Fee` makes `compute_transaction_metrics` raise
`ValueError` instead of returning a result with commission 0. -/
theorem commission_coercion_cex :
    fieldVal c2BadTrade "Comm/Fee" = none ∧
    compute_transaction_metrics c2BadTrade 6 = Except.error "ValueError" := by
  have hq : fieldVal c2BadTrade "Quantity" = some 3 := by
    rw [fieldVal_natCast c2BadTrade "Quantity" "3" 3 (by decide) (by decide)]
    norm_num
  have hp : fieldVal c2BadTrade "T. Price" = some 4 := by
    rw [fieldVal_natCast c2BadTrade "T. Price" "4" 4 (by decide) (by decide)]
    norm_num
  have hc : fieldVal c2BadTrade "Comm/Fee" = none :=
    fieldVal_none c2BadTrade "Comm/Fee" "x" (by decide) (by decide)
  exact ⟨hc, by simp [compute_transaction_metrics, hq, hp, hc]⟩

/-- Witness for C2: on a trade with all three fields numeric, the returned
record carries the commission and the commission-free metrics. -/
theorem commission_coercion_witness :
    compute_transaction_metrics c2GoodTrade 5 = Except.ok (some
      { quantity := 1, trade_price := 2, cost := (1 : ℚ) * 2,
        current_value := (1 : ℚ) * 5, profit_loss := (1 : ℚ) * 5 - (1 : ℚ) * 2,
        percentage_return := txPct 1 2 5, commission := 7 }) := by
  have hq : fieldVal c2GoodTrade "Quantity" = some 1 := by
    rw [fieldVal_natCast c2GoodTrade "Quantity" "1" 1 (by decide) (by decide)]
    norm_num
  have hp : fieldVal c2GoodTrade "T. Price" = some 2 := by
    rw [fieldVal_natCast c2GoodTrade "T. Price" "2" 2 (by decide) (by decide)]
    norm_num
  have hc : fieldVal c2GoodTrade "Comm/Fee" = some 7 := by
    rw [fieldVal_natCast c2GoodTrade "Comm/Fee" "7" 7 (by decide) (by decide)]
    norm_num
  exact (commission_coercion c2GoodTrade 5 1 2 hq hp).2 7 hc

/-- C6 (amended): for a trade whose `Quantity`, `T. Price` and `Comm/Fee`
all coerce, with negative quantity and nonzero cost,
`compute_transaction_metrics` returns percentage_return equal to the
negation of `(current_value - cost)/cost*100` (when `Comm/Fee` does not
coerce the function raises instead of returning; see the
counterexample). -/
theorem sell_sign_flip (t : Record) (cp qv pv c : ℚ)
    (hq : fieldVal t "Quantity" = some qv) (hp : fieldVal t "T. Price" = some pv)
    (hc : fieldVal t "Comm/Fee" = some c) (hneg : qv < 0) (hcost : qv * pv ≠ 0) :
    compute_transaction_metrics t cp = Except.ok (some
      { quantity := qv, trade_price := pv, cost := qv * pv, current_value := qv * cp,
        profit_loss := qv * cp - qv * pv,
        percentage_return := some (-((qv * cp - qv * pv) / (qv * pv) * 100)),
        commission := c }) := by
  simp [compute_transaction_metrics, hq, hp, hc, txPct, hcost, hneg]

/-- C6 counterexample: a sell trade with numeric `Quantity = -1` and
`T. Price = 2` (so cost = -2 ≠ 0) but non-numeric `Comm/Fee` returns no
result at all: the function raises `ValueError`. -/
theorem sell_sign_flip_cex :
    fieldVal c6BadTrade "Quantity" = some (-1) ∧
    fieldVal c6BadTrade "T. Price" = some 2 ∧
    compute_transaction_metrics c6BadTrade 3 = Except.error "ValueError" := by
  have hq : fieldVal c6BadTrade "Quantity" = some (-1) := by
    rw [fieldVal_negNatCast c6BadTrade "Quantity" "-1" 1 (by decide) (by decide)]
    norm_num
  have hp : fieldVal c6BadTrade "T. Price" = some 2 := by
    rw [fieldVal_natCast c6BadTrade "T. Price" "2" 2 (by decide) (by decide)]
    norm_num
  have hc : fieldVal c6BadTrade "Comm/Fee" = none :=
    fieldVal_none c6BadTrade "Comm/Fee" "x" (by decide) (by decide)
  exact ⟨hq, hp, by simp [compute_transaction_metrics, hq, hp, hc]⟩

/-- Witness for C6: a sell of 2 at 3 with commission 1 and current price 4
gets the sign-flipped percentage return. -/
theorem sell_sign_flip_witness :
    compute_transaction_metrics c6SellTrade 4 = Except.ok (some
      { quantity := (-2 : ℚ), trade_price := 3, cost := (-2 : ℚ) * 3,
        current_value := (-2 : ℚ) * 4,
        profit_loss := (-2 : ℚ) * 4 - (-2 : ℚ) * 3,
        percentage_return := some (-(((-2 : ℚ) * 4 - (-2 : ℚ) * 3) / ((-2 : ℚ) * 3) * 100)),
        commission := 1 }) := by
  have hq : fieldVal c6SellTrade "Quantity" = some (-2) := by
    rw [fieldVal_negNatCast c6SellTrade "Quantity" "-2" 2 (by decide) (by decide)]
    norm_num
  have hp : fieldVal c6SellTrade "T. Price" = some 3 := by
    rw [fieldVal_natCast c6SellTrade "T. Price" "3" 3 (by decide) (by decide)]
    norm_num
  have hc : fieldVal c6SellTrade "Comm/Fee" = some 1 := by
    rw [fieldVal_natCast c6SellTrade "Comm/Fee" "1" 1 (by decide) (by decide)]
    norm_num
  exact sell_sign_flip c6SellTrade 4 (-2) 3 1 hq hp hc (by norm_num) (by norm_num)

/-- C10: a trade merely missing one of `Quantity`, `T. Price` or
`Comm/Fee` (key absent) is not excluded from aggregation: the absent
field defaults to the string `"0"`, coerces to 0, and the trade is
accumulated with zero contribution from that field. -/
theorem missing_field_default (t : Record) (acc : ℚ × ℚ) :
    ((alookup t "Quantity" = none →
        dictGetD t "Quantity" "0" = "0" ∧ fieldVal t "Quantity" = some 0) ∧
     (alookup t "T. Price" = none →
        dictGetD t "T. Price" "0" = "0" ∧ fieldVal t "T. Price" = some 0) ∧
     (alookup t "Comm/Fee" = none →
        dictGetD t "Comm/Fee" "0" = "0" ∧ fieldVal t "Comm/Fee" = some 0)) ∧
    (∀ qv pv cv : ℚ, fieldVal t "Quantity" = some qv →
      fieldVal t "T. Price" = some pv → fieldVal t "Comm/Fee" = some cv →
      tradeStep acc t = (acc.1 + qv, acc.2 + (qv * pv - cv))) := by
  have h0 : pyFloat "0" = some 0 := by
    rw [pyFloat_natLit (show pyFloatParts "0" = some (false, 0, 0, 0) by decide)]
    norm_num
  refine ⟨⟨fun h => ?_, fun h => ?_, fun h => ?_⟩, fun qv pv cv hq hp hc => ?_⟩
  · have hd : dictGetD t "Quantity" "0" = "0" := by simp [dictGetD, h]
    exact ⟨hd, by rw [fieldVal, hd]; exact h0⟩
  · have hd : dictGetD t "T. Price" "0" = "0" := by simp [dictGetD, h]
    exact ⟨hd, by rw [fieldVal, hd]; exact h0⟩
  · have hd : dictGetD t "Comm/Fee" "0" = "0" := by simp [dictGetD, h]
    exact ⟨hd, by rw [fieldVal, hd]; exact h0⟩
  · simp [tradeStep, hq, hp, hc]

/-- Witness for C10: a trade with no `Comm/Fee` key coerces its commission
to 0 and is accumulated with full quantity and cost. -/
theorem missing_field_default_witness :
    fieldVal c10Trade "Comm/Fee" = some 0 ∧
    tradeStep (0, 0) c10Trade = (10, 1000) := by
  have h := missing_field_default c10Trade (0, 0)
  have hc : fieldVal c10Trade "Comm/Fee" = some 0 := (h.1.2.2 (by decide)).2
  have hq : fieldVal c10Trade "Quantity" = some 10 := by
    rw [fieldVal_natCast c10Trade "Quantity" "10" 10 (by decide) (by decide)]
    norm_num
  have hp : fieldVal c10Trade "T. Price" = some 100 := by
    rw [fieldVal_natCast c10Trade "T. Price" "100" 100 (by decide) (by decide)]
    norm_num
  refine ⟨hc, ?_⟩
  rw [h.2 10 100 0 hq hp hc]
  norm_num [Prod.ext_iff]

end Mexem
